import Mathlib

/-!
Verification of the WebSocket connection/subscription manager of
mcp-mempool (`src/mempool_ws_mcp_server/websocket_manager.py`).

The manager keeps two Python dicts,
`subscriptions : client_id -> set of channels` and
`channel_subscribers : channel -> set of client_ids`, a bounded
`asyncio.Queue` of recent messages, listener queues per channel, and
reconnection bookkeeping.  We embed the dicts as association lists with
`Finset String` values (Python sets are unordered collections with
extensional equality, which `Finset` models exactly), upstream control
frames as an inductive type, and each public coroutine as a pure function
from manager state to new state plus the list of frames it sends.
`asyncio.Queue.put` on a full queue suspends the producer; we model a put
as an `Option`, where `none` means the coroutine is suspended waiting for
space (no element is added and nothing is dropped).
-/

namespace MempoolWS

/-- A client-to-server control frame, as built from `WebSocketMessage`
(`action="want"` with a channel-name list) or `TrackAddressMessage`
(a single tracked address). -/
inductive Frame where
  | want (data : List String)
  | trackAddress (address : String)
deriving DecidableEq

/-- Values appearing in the dict returned by `get_connection_status`. -/
inductive StatusValue where
  | bool (b : Bool)
  | nat (n : Nat)
deriving DecidableEq

/-- An inbound upstream message, abstracted to its set of top-level JSON
keys; `_determine_channel` inspects only key membership. -/
structure Message where
  keys : List String
deriving DecidableEq

/-! ## Python dict embedding

A `dict` is an insertion-ordered association list with unique keys.  We
embed it as a plain association list; key uniqueness is a representation
invariant (`keysNodup`) that Python dicts enforce structurally. -/

/-- Embedding of a Python dict with `String` keys. -/
abbrev Dict (β : Type) : Type := List (String × β)

/-- `d.get(k)` as an `Option`: the value at key `k`, if present. -/
def dlookup {β : Type} (d : Dict β) (k : String) : Option β :=
  (d.find? (fun p => p.1 == k)).map (fun p => p.2)

/-- `k in d` (Python key-membership test). -/
def dmem {β : Type} (d : Dict β) (k : String) : Bool :=
  (d.find? (fun p => p.1 == k)).isSome

/-- `d[k] = v` (Python item assignment): replaces the value in place when
the key is present, otherwise appends the new entry at the end. -/
def dset {β : Type} (d : Dict β) (k : String) (v : β) : Dict β :=
  if dmem d k then d.map (fun p => if p.1 == k then (k, v) else p)
  else d ++ [(k, v)]

/-- `del d[k]` (also a no-op when the key is absent, which the source
never relies on). -/
def derase {β : Type} (d : Dict β) (k : String) : Dict β :=
  d.filter (fun p => !(p.1 == k))

/-- The set stored at key `k`, defaulting to the empty set when the key
is absent; this is the natural observation on the two registry dicts. -/
def dget (d : Dict (Finset String)) (k : String) : Finset String :=
  (dlookup d k).getD ∅

/-- Keys of the dict are pairwise distinct (every Python dict satisfies
this by construction). -/
def keysNodup {β : Type} (d : Dict β) : Prop :=
  (d.map Prod.fst).Nodup

instance {β : Type} (d : Dict β) : Decidable (keysNodup d) :=
  inferInstanceAs (Decidable (List.Nodup _))

/-! ## Channel names (`types.ChannelType`) -/

/-- `ChannelType.TRACK_ADDRESS` -/
def TRACK_ADDRESS : String := "track-address"

/-- The prefix of the synthetic per-address channel names
`f"track-address:{address}"`. -/
def TRACK_ADDRESS_COLON : String := "track-address:"

/-- `channel.startswith(pre)` -/
def strStartsWith (s pre : String) : Bool :=
  pre.toList.isPrefixOf s.toList

/-- `channel.split(":", 1)[1]` for a string that contains a colon: the
part after the first colon. -/
def afterFirstColon (s : String) : String :=
  String.mk ((s.toList.dropWhile (fun c => c != ':')).drop 1)

/-! ## Manager state -/

/-- The mutable state of `WebSocketManager` that the verified operations
touch.  `websocket` presence is folded into `is_connected`; `last_ping`
is an abstract timestamp. -/
structure Manager where
  subscriptions : Dict (Finset String)
  channel_subscribers : Dict (Finset String)
  is_connected : Bool
  last_ping : Nat
  reconnect_attempts : Nat
  max_reconnect_attempts : Nat
deriving DecidableEq

/-- The state built by `__init__` (with the default configuration
`WS_MAX_RECONNECT_ATTEMPTS = 10`). -/
def Manager.init : Manager :=
  { subscriptions := []
    channel_subscribers := []
    is_connected := false
    last_ping := 0
    reconnect_attempts := 0
    max_reconnect_attempts := 10 }

/-! ## Operations (`websocket_manager.py`) -/

/-- `subscribe_channel(client_id, channel)`: record the pairing in both
dicts; if the channel now has exactly one subscriber and is not the
`track-address` pseudo-channel, send `WebSocketMessage(action="want",
data=[channel])`. -/
def subscribe_channel (m : Manager) (client_id channel : String) :
    Manager × List Frame :=
  let subs := dset m.subscriptions client_id
    (insert channel (dget m.subscriptions client_id))
  let newSubscribers := insert client_id (dget m.channel_subscribers channel)
  let chans := dset m.channel_subscribers channel newSubscribers
  let m' := { m with subscriptions := subs, channel_subscribers := chans }
  if newSubscribers.card = 1 then
    if channel = TRACK_ADDRESS then (m', [])
    else (m', [Frame.want [channel]])
  else (m', [])

/-- `unsubscribe_channel(client_id, channel)`: discard the pairing from
both dicts, deleting entries that become empty; when the channel entry is
deleted and the channel is not the `track-address` pseudo-channel, send
`WebSocketMessage(action="want", data=[])`. -/
def unsubscribe_channel (m : Manager) (client_id channel : String) :
    Manager × List Frame :=
  let subs :=
    match dlookup m.subscriptions client_id with
    | none => m.subscriptions
    | some s =>
      let s' := s.erase channel
      if s' = ∅ then derase m.subscriptions client_id
      else dset m.subscriptions client_id s'
  match dlookup m.channel_subscribers channel with
  | none => ({ m with subscriptions := subs }, [])
  | some cs =>
    let cs' := cs.erase client_id
    if cs' = ∅ then
      ({ m with subscriptions := subs,
                channel_subscribers := derase m.channel_subscribers channel },
       if channel ≠ TRACK_ADDRESS then [Frame.want []] else [])
    else
      ({ m with subscriptions := subs,
                channel_subscribers := dset m.channel_subscribers channel cs' },
       [])

/-- `track_address(client_id, address)`: send
`TrackAddressMessage(track_address=address)` unconditionally, then record
the pairing via `subscribe_channel` under `track-address:<address>`. -/
def track_address (m : Manager) (client_id address : String) :
    Manager × List Frame :=
  let r := subscribe_channel m client_id (TRACK_ADDRESS_COLON ++ address)
  (r.1, Frame.trackAddress address :: r.2)

/-- `unsubscribe_client(client_id)`: unsubscribe the client from every
channel in a snapshot of its channel set (set iteration order is
arbitrary in Python; we iterate in sorted order). -/
def unsubscribe_client (m : Manager) (client_id : String) :
    Manager × List Frame :=
  match dlookup m.subscriptions client_id with
  | none => (m, [])
  | some s =>
    (s.sort (· ≤ ·)).foldl
      (fun acc channel =>
        let r := unsubscribe_channel acc.1 client_id channel
        (r.1, acc.2 ++ r.2))
      (m, [])

/-- `_restore_subscriptions()`: for every key of `channel_subscribers`,
send a track-address frame when the name starts with `track-address:`
(with the part after the colon as the address), otherwise a want frame
naming just that channel. -/
def restore_subscriptions (m : Manager) : List Frame :=
  m.channel_subscribers.map (fun p =>
    if strStartsWith p.1 TRACK_ADDRESS_COLON then
      Frame.trackAddress (afterFirstColon p.1)
    else Frame.want [p.1])

/-- The successful path of `connect()`: a no-op when already connected,
otherwise sets `is_connected` and resets `reconnect_attempts` to zero. -/
def connect_success (m : Manager) : Manager :=
  if m.is_connected then m
  else { m with is_connected := true, reconnect_attempts := 0 }

/-- Observable events of one `_handle_reconnect()` invocation, up to the
`connect()` attempt. -/
inductive ReconnectEvent where
  | sleep (backoff : Nat)
  | connectAttempt
deriving DecidableEq

/-- One invocation of `_handle_reconnect()` up to its `connect()` call:
returns immediately when the attempt counter has reached the maximum;
otherwise increments the counter, sleeps `min(2 ** attempts, 60)`, and
attempts to connect. -/
def handle_reconnect_step (m : Manager) : Manager × List ReconnectEvent :=
  if m.max_reconnect_attempts ≤ m.reconnect_attempts then (m, [])
  else
    let attempts := m.reconnect_attempts + 1
    let backoff := min (2 ^ attempts) 60
    ({ m with reconnect_attempts := attempts },
     [ReconnectEvent.sleep backoff, ReconnectEvent.connectAttempt])

/-- The event trace of `k` consecutive `_handle_reconnect()` invocations
when every `connect()` attempt fails (the `except` branch recurses with
the incremented counter and no other state change). -/
def reconnect_events_on_failures : Manager → Nat → List ReconnectEvent
  | _, 0 => []
  | m, Nat.succ k =>
    let r := handle_reconnect_step m
    r.2 ++ reconnect_events_on_failures r.1 k

/-- The sleep durations occurring in a reconnect event trace. -/
def sleepsOf (evs : List ReconnectEvent) : List Nat :=
  evs.filterMap (fun e =>
    match e with
    | ReconnectEvent.sleep n => some n
    | ReconnectEvent.connectAttempt => none)

/-- `get_connection_status()`: the returned dict, as an ordered list of
key-value pairs. -/
def get_connection_status (m : Manager) : List (String × StatusValue) :=
  [("connected", StatusValue.bool m.is_connected),
   ("last_ping", StatusValue.nat m.last_ping),
   ("reconnect_attempts", StatusValue.nat m.reconnect_attempts),
   ("active_subscriptions", StatusValue.nat m.channel_subscribers.length),
   ("total_clients", StatusValue.nat m.subscriptions.length)]

deriving instance DecidableEq for Except

/-- `_determine_channel(data)`: first matching top-level key wins;
`Except.ok none` is the fall-through `return None`.  The
`live-2h-chart` branch executes `return ChannelType.LIVE_2H`, but the
`ChannelType` enum in `types.py` has no member named `LIVE_2H` (only
`LIVE_2H_CHART`), so that branch raises `AttributeError` instead of
returning. -/
def determine_channel (keys : List String) : Except String (Option String) :=
  if "block" ∈ keys then Except.ok (some "blocks")
  else if "mempool-blocks" ∈ keys then Except.ok (some "mempool-blocks")
  else if "mempoolInfo" ∈ keys then Except.ok (some "stats")
  else if "live-2h-chart" ∈ keys then Except.error "AttributeError: LIVE_2H"
  else if "address" ∈ keys then Except.ok (some TRACK_ADDRESS)
  else Except.ok none

/-! ## asyncio.Queue embedding -/

/-- An `asyncio.Queue`: bounded FIFO when `maxsize` is positive,
unbounded when `maxsize = 0`. -/
structure AQueue (α : Type) where
  maxsize : Nat
  items : List α
deriving DecidableEq

/-- The queue is at capacity. -/
def AQueue.full {α : Type} (q : AQueue α) : Bool :=
  decide (0 < q.maxsize) && decide (q.maxsize ≤ q.items.length)

/-- `await queue.put(item)`: appends when the queue is not full; on a
full queue the producer coroutine suspends until space frees, which we
model as `none` — the element is not added, nothing is dropped, and
`asyncio.QueueFull` is not raised (only `put_nowait` raises it). -/
def AQueue.put {α : Type} (q : AQueue α) (x : α) : Option (AQueue α) :=
  if q.full then none else some { q with items := q.items ++ [x] }

/-- Sequentially `await put` each message; `none` as soon as one put
suspends. -/
def AQueue.putAll {α : Type} (q : AQueue α) (xs : List α) : Option (AQueue α) :=
  xs.foldlM AQueue.put q

/-- The listener registry `_listeners : channel -> list of queues`. -/
abbrev Listeners : Type := Dict (List (AQueue Message))

/-- How an awaited `_distribute_message(data)` call can end: suspended
on a full listener queue, terminated by an exception propagating out of
`_determine_channel`, or completed with the updated listener queues. -/
inductive DistOutcome where
  | blocked
  | raised (e : String)
  | ok (L : Listeners)
deriving DecidableEq

/-- `_distribute_message(data)`: classify via `_determine_channel` (an
exception there propagates to the caller); when the channel has
registered listeners, `await queue.put(data)` on each queue in order.
The source wraps each put in `except asyncio.QueueFull`, but a blocking
put never raises `QueueFull`, so a full queue suspends the loop
(`blocked`) and the drop branch is unreachable. -/
def distribute_message (L : Listeners) (msg : Message) : DistOutcome :=
  match determine_channel msg.keys with
  | Except.error e => DistOutcome.raised e
  | Except.ok none => DistOutcome.ok L
  | Except.ok (some channel) =>
    match dlookup L channel with
    | none => DistOutcome.ok L
    | some qs =>
      match qs.mapM (fun q => AQueue.put q msg) with
      | none => DistOutcome.blocked
      | some qs' => DistOutcome.ok (dset L channel qs')

/-- How one iteration of the `_message_handler` loop body can end for a
decoded message: suspended on a full queue, or finished with an
exception from the distribution step caught by the loop's generic
`except Exception` clause (logged, loop continues; the message was
already appended to the history by then), or completed normally. -/
inductive HandleOutcome where
  | blocked
  | caught (hist : AQueue Message) (L : Listeners) (e : String)
  | ok (hist : AQueue Message) (L : Listeners)
deriving DecidableEq

/-- The per-message body of `_message_handler`: `await
message_queue.put(data)` into the history buffer, then distribute to
listeners. -/
def handle_message (hist : AQueue Message) (L : Listeners) (msg : Message) :
    HandleOutcome :=
  match hist.put msg with
  | none => HandleOutcome.blocked
  | some hist' =>
    match distribute_message L msg with
    | DistOutcome.blocked => HandleOutcome.blocked
    | DistOutcome.raised e => HandleOutcome.caught hist' L e
    | DistOutcome.ok L' => HandleOutcome.ok hist' L'

/-! ## Registry predicates -/

/-- The bidirectional registry invariant of the spec: a subscriber is
recorded under a channel exactly when the channel is recorded under the
subscriber. -/
def Inv (m : Manager) : Prop :=
  ∀ s c : String, s ∈ dget m.channel_subscribers c ↔ c ∈ dget m.subscriptions s

/-- Every stored set in the dict is nonempty (the code deletes entries
that become empty and only creates them with a fresh element). -/
def entriesNonempty (d : Dict (Finset String)) : Prop :=
  ∀ p ∈ d, p.2 ≠ (∅ : Finset String)

instance (d : Dict (Finset String)) : Decidable (entriesNonempty d) :=
  inferInstanceAs (Decidable (∀ p ∈ d, _))

/-- Representation well-formedness of the two registry dicts: unique
keys (structural for Python dicts) and no empty set entries. -/
def RegWF (m : Manager) : Prop :=
  keysNodup m.subscriptions ∧ keysNodup m.channel_subscribers ∧
    entriesNonempty m.subscriptions ∧ entriesNonempty m.channel_subscribers

instance (m : Manager) : Decidable (RegWF m) :=
  inferInstanceAs (Decidable (_ ∧ _ ∧ _ ∧ _))

/-- The public registry-mutating operations of the manager. -/
inductive Op where
  | sub (client channel : String)
  | unsub (client channel : String)
  | track (client address : String)
  | unsubAll (client : String)

/-- Apply one public operation, discarding the emitted frames. -/
def applyOp (m : Manager) : Op → Manager
  | Op.sub cl ch => (subscribe_channel m cl ch).1
  | Op.unsub cl ch => (unsubscribe_channel m cl ch).1
  | Op.track cl a => (track_address m cl a).1
  | Op.unsubAll cl => (unsubscribe_client m cl).1

/-- The state after a sequence of public operations from the fresh
manager. -/
def runOps (ops : List Op) : Manager := ops.foldl applyOp Manager.init

/-- A manager state reachable from the fresh manager through the public
registry operations. -/
def Reachable (m : Manager) : Prop := ∃ ops, runOps ops = m

/-! ## Concrete states and spec-side counts used by the claims -/

/-- The state after "alice" subscribes to "blocks" and "bob" subscribes
to "stats". -/
def c1_state : Manager :=
  (subscribe_channel (subscribe_channel Manager.init "alice" "blocks").1
    "bob" "stats").1

/-- Witness state for C1 amended: "alice" alone on "blocks". -/
def c1w : Manager := (subscribe_channel Manager.init "alice" "blocks").1

/-- The state after "dave" subscribes to "blocks" once. -/
def c3_once : Manager := (subscribe_channel Manager.init "dave" "blocks").1

/-- A registry state with a dangling empty entry: it satisfies the
bidirectional invariant, yet unsubscribing the pair deletes the empty
entry and therefore changes the subscriptions map. -/
def c10_dangling : Manager :=
  { Manager.init with subscriptions := [("sue", ∅)] }

/-- Witness state for C10: "alice" on "blocks". -/
def c10w : Manager := (subscribe_channel Manager.init "alice" "blocks").1

/-- Witness state for C8: two ordinary channels and one tracked
address. -/
def c8m : Manager :=
  (track_address
    (subscribe_channel (subscribe_channel Manager.init "alice" "blocks").1
      "bob" "stats").1
    "carol" "addr1").1

/-- Stated from the spec wording, for comparison with the code: the
number of channels having at least one subscriber. -/
def channelsWithSubscribers (m : Manager) : Nat :=
  (m.channel_subscribers.filter
    (fun p => decide (p.2 ≠ (∅ : Finset String)))).length

/-- Stated from the spec wording, for comparison with the code: the
number of subscribers having at least one channel. -/
def clientsWithChannels (m : Manager) : Nat :=
  (m.subscriptions.filter
    (fun p => decide (p.2 ≠ (∅ : Finset String)))).length

/-- A manager whose automatic recovery has given up: the attempt counter
sits at the configured maximum. -/
def c9_abandoned : Manager := { Manager.init with reconnect_attempts := 10 }

/-- Witness state for C9: one subscriber on one channel. -/
def c9w : Manager := (subscribe_channel Manager.init "eve" "blocks").1

/-! ## Dict lemmas -/

theorem find?_cons {β : Type} (pr : String × β → Bool) (p : String × β)
    (d : Dict β) :
    List.find? pr (p :: d) = if pr p then some p else List.find? pr d := by
  cases h : pr p <;> simp [List.find?, h]

theorem dlookup_nil {β : Type} (k : String) : dlookup ([] : Dict β) k = none := rfl

theorem dlookup_cons {β : Type} (p : String × β) (d : Dict β) (k : String) :
    dlookup (p :: d) k = if p.1 = k then some p.2 else dlookup d k := by
  simp only [dlookup, find?_cons]
  by_cases h : p.1 = k <;> simp [h]

theorem dmem_iff {β : Type} (d : Dict β) (k : String) :
    dmem d k = true ↔ (dlookup d k).isSome := by
  simp [dmem, dlookup]

theorem dlookup_mem {β : Type} {d : Dict β} {k : String} {v : β}
    (h : dlookup d k = some v) : (k, v) ∈ d := by
  induction d with
  | nil => simp [dlookup_nil] at h
  | cons p d ih =>
    rw [dlookup_cons] at h
    by_cases hp : p.1 = k
    · rw [if_pos hp] at h
      injection h with hv
      have hkv : (k, v) = p := by rw [← hp, ← hv]
      rw [hkv]
      exact List.mem_cons_self p d
    · exact List.mem_cons_of_mem _ (ih (by rwa [if_neg hp] at h))

theorem dlookup_map_self {β : Type} (d : Dict β) (k : String) (v : β) :
    dlookup (d.map (fun p => if p.1 == k then (k, v) else p)) k =
      (dlookup d k).map (fun _ => v) := by
  induction d with
  | nil => rfl
  | cons p d ih =>
    by_cases hp : p.1 = k
    · simp only [List.map_cons, if_pos (show (p.1 == k) = true by simpa using hp)]
      rw [dlookup_cons, dlookup_cons, if_pos rfl, if_pos hp]
      rfl
    · simp only [List.map_cons, if_neg (show ¬ (p.1 == k) = true by simpa using hp)]
      rw [dlookup_cons, dlookup_cons, if_neg hp, if_neg hp, ih]

theorem dlookup_map_ne {β : Type} (d : Dict β) (k k' : String) (v : β)
    (h : k' ≠ k) :
    dlookup (d.map (fun p => if p.1 == k then (k, v) else p)) k' =
      dlookup d k' := by
  induction d with
  | nil => rfl
  | cons p d ih =>
    by_cases hp : p.1 = k
    · simp only [List.map_cons, if_pos (show (p.1 == k) = true by simpa using hp)]
      rw [dlookup_cons, dlookup_cons,
        if_neg (show ¬ (k, v).1 = k' from fun hh => h (by rw [← hh])),
        if_neg (show ¬ p.1 = k' from fun hh => h (by rw [← hh]; exact hp)),
        ih]
    · simp only [List.map_cons, if_neg (show ¬ (p.1 == k) = true by simpa using hp)]
      by_cases hp' : p.1 = k'
      · rw [dlookup_cons, dlookup_cons, if_pos hp', if_pos hp']
      · rw [dlookup_cons, dlookup_cons, if_neg hp', if_neg hp', ih]

theorem dlookup_append_single {β : Type} (d : Dict β) (k k' : String) (v : β) :
    dlookup (d ++ [(k, v)]) k' =
      match dlookup d k' with
      | some w => some w
      | none => if k = k' then some v else none := by
  induction d with
  | nil => simp [dlookup_nil, dlookup_cons]
  | cons p d ih =>
    by_cases hp : p.1 = k'
    · simp [dlookup_cons, hp]
    · simp [dlookup_cons, hp, ih]

theorem not_dmem_keys {β : Type} {d : Dict β} {k : String}
    (hm : ¬ dmem d k = true) : ∀ p ∈ d, p.1 ≠ k := by
  intro p hp hk
  have hfind : List.find? (fun p => p.1 == k) d = none := by
    cases h : List.find? (fun p => p.1 == k) d with
    | none => rfl
    | some q => exact absurd (by simp [dmem, h]) hm
  have := List.find?_eq_none.mp hfind p hp
  simp [hk] at this

theorem dlookup_none_of_not_dmem {β : Type} {d : Dict β} {k : String}
    (hm : ¬ dmem d k = true) : dlookup d k = none := by
  cases h : dlookup d k with
  | none => rfl
  | some v => exact absurd ((dmem_iff d k).mpr (by simp [h])) hm

theorem dlookup_dset_self {β : Type} (d : Dict β) (k : String) (v : β) :
    dlookup (dset d k v) k = some v := by
  by_cases hm : dmem d k
  · rw [dset, if_pos hm, dlookup_map_self]
    have hs := (dmem_iff d k).mp hm
    cases h : dlookup d k with
    | none => rw [h] at hs; simp at hs
    | some w => simp
  · rw [dset, if_neg hm, dlookup_append_single,
        dlookup_none_of_not_dmem hm]
    simp

theorem dlookup_dset_ne {β : Type} (d : Dict β) (k k' : String) (v : β)
    (h : k' ≠ k) : dlookup (dset d k v) k' = dlookup d k' := by
  by_cases hm : dmem d k
  · rw [dset, if_pos hm, dlookup_map_ne d k k' v h]
  · rw [dset, if_neg hm, dlookup_append_single]
    cases hl : dlookup d k' with
    | none => simp [show ¬ k = k' from fun hk => h hk.symm]
    | some w => simp

theorem dget_dset_self (d : Dict (Finset String)) (k : String)
    (v : Finset String) : dget (dset d k v) k = v := by
  simp [dget, dlookup_dset_self]

theorem dget_dset_ne (d : Dict (Finset String)) (k k' : String)
    (v : Finset String) (h : k' ≠ k) : dget (dset d k v) k' = dget d k' := by
  simp [dget, dlookup_dset_ne d k k' v h]

theorem derase_cons {β : Type} (p : String × β) (d : Dict β) (k : String) :
    derase (p :: d) k = if p.1 = k then derase d k else p :: derase d k := by
  by_cases hp : p.1 = k <;> simp [derase, hp]

theorem dlookup_derase {β : Type} (d : Dict β) (k k' : String) :
    dlookup (derase d k) k' = if k' = k then none else dlookup d k' := by
  induction d with
  | nil => by_cases h : k' = k <;> simp [derase, dlookup_nil, h]
  | cons p d ih =>
    rw [derase_cons]
    by_cases hp : p.1 = k
    · rw [if_pos hp, ih]
      by_cases h : k' = k
      · simp [h]
      · rw [if_neg h, if_neg h, dlookup_cons,
          if_neg (show ¬ p.1 = k' from fun hh => h (hh ▸ hp))]
    · rw [if_neg hp, dlookup_cons]
      by_cases hp' : p.1 = k'
      · rw [if_pos hp',
          if_neg (show ¬ k' = k from fun hh => hp (by rw [hp', hh])),
          dlookup_cons, if_pos hp']
      · rw [if_neg hp', ih]
        by_cases h : k' = k
        · simp [h]
        · rw [if_neg h, if_neg h, dlookup_cons, if_neg hp']

theorem dget_derase (d : Dict (Finset String)) (k k' : String) :
    dget (derase d k) k' = if k' = k then ∅ else dget d k' := by
  by_cases h : k' = k <;> simp [dget, dlookup_derase, h]

theorem map_set_of_no_key {β : Type} (d : Dict β) (k : String) (v : β)
    (hk : ∀ p ∈ d, p.1 ≠ k) :
    d.map (fun p => if p.1 == k then (k, v) else p) = d := by
  induction d with
  | nil => rfl
  | cons p d ih =>
    have h1 := hk p (by simp)
    rw [List.map_cons, if_neg (show ¬ (p.1 == k) = true by simpa using h1),
      ih (fun q hq => hk q (by simp [hq]))]

theorem keysNodup_cons {β : Type} {p : String × β} {d : Dict β}
    (h : keysNodup (p :: d)) : p.1 ∉ d.map Prod.fst ∧ keysNodup d := by
  simpa [keysNodup] using h

theorem dset_self_of_lookup {β : Type} (d : Dict β) (k : String) (v : β)
    (hnd : keysNodup d) (h : dlookup d k = some v) : dset d k v = d := by
  have hm : dmem d k := (dmem_iff d k).mpr (by simp [h])
  rw [dset, if_pos hm]
  clear hm
  induction d with
  | nil => rfl
  | cons p d ih =>
    obtain ⟨hnotin, hnd'⟩ := keysNodup_cons hnd
    rw [dlookup_cons] at h
    by_cases hp : p.1 = k
    · rw [if_pos hp] at h
      injection h with hv
      have hpair : (k, v) = p := by
        rw [← hp, ← hv]
      have hnok : ∀ q ∈ d, q.1 ≠ k := by
        intro q hq hqk
        exact hnotin (hp ▸ hqk ▸ List.mem_map_of_mem Prod.fst hq)
      rw [List.map_cons, if_pos (show (p.1 == k) = true by simpa using hp),
        map_set_of_no_key d k v hnok, hpair]
    · rw [if_neg hp] at h
      rw [List.map_cons, if_neg (show ¬ (p.1 == k) = true by simpa using hp),
        ih hnd' h]

/-! ## Operation characterization -/

theorem subscribe_state (m : Manager) (cl ch : String) :
    (subscribe_channel m cl ch).1 =
      { m with
        subscriptions :=
          dset m.subscriptions cl (insert ch (dget m.subscriptions cl))
        channel_subscribers :=
          dset m.channel_subscribers ch
            (insert cl (dget m.channel_subscribers ch)) } := by
  unfold subscribe_channel
  simp only [apply_ite Prod.fst, ite_self]

theorem subscribe_subs_dget (m : Manager) (cl ch s : String) :
    dget (subscribe_channel m cl ch).1.subscriptions s =
      if s = cl then insert ch (dget m.subscriptions s)
      else dget m.subscriptions s := by
  rw [subscribe_state]
  by_cases h : s = cl
  · subst h
    rw [if_pos rfl]
    exact dget_dset_self _ _ _
  · rw [if_neg h]
    exact dget_dset_ne _ _ _ _ h

theorem subscribe_chans_dget (m : Manager) (cl ch c : String) :
    dget (subscribe_channel m cl ch).1.channel_subscribers c =
      if c = ch then insert cl (dget m.channel_subscribers c)
      else dget m.channel_subscribers c := by
  rw [subscribe_state]
  by_cases h : c = ch
  · subst h
    rw [if_pos rfl]
    exact dget_dset_self _ _ _
  · rw [if_neg h]
    exact dget_dset_ne _ _ _ _ h

theorem subscribe_frames (m : Manager) (cl ch : String) :
    (subscribe_channel m cl ch).2 =
      if (insert cl (dget m.channel_subscribers ch)).card = 1 then
        if ch = TRACK_ADDRESS then [] else [Frame.want [ch]]
      else [] := by
  unfold subscribe_channel
  simp only [apply_ite Prod.snd]

theorem unsub_subs_eq (m : Manager) (cl ch : String) :
    (unsubscribe_channel m cl ch).1.subscriptions =
      match dlookup m.subscriptions cl with
      | none => m.subscriptions
      | some s0 =>
        if s0.erase ch = ∅ then derase m.subscriptions cl
        else dset m.subscriptions cl (s0.erase ch) := by
  unfold unsubscribe_channel
  cases hc : dlookup m.channel_subscribers ch with
  | none => rfl
  | some cs =>
    dsimp only
    split <;> rfl

theorem unsub_subs_dget (m : Manager) (cl ch s : String) :
    dget (unsubscribe_channel m cl ch).1.subscriptions s =
      if s = cl then (dget m.subscriptions s).erase ch
      else dget m.subscriptions s := by
  rw [unsub_subs_eq]
  cases hl : dlookup m.subscriptions cl with
  | none =>
    by_cases h : s = cl
    · subst h
      rw [if_pos rfl]
      simp [dget, hl]
    · rw [if_neg h]
  | some s0 =>
    show dget (if s0.erase ch = ∅ then derase m.subscriptions cl
      else dset m.subscriptions cl (s0.erase ch)) s = _
    by_cases he : s0.erase ch = ∅
    · rw [if_pos he]
      by_cases h : s = cl
      · subst h
        rw [if_pos rfl, dget_derase, if_pos rfl]
        simp [dget, hl, he]
      · rw [if_neg h, dget_derase, if_neg h]
    · rw [if_neg he]
      by_cases h : s = cl
      · subst h
        rw [if_pos rfl, dget_dset_self]
        simp [dget, hl]
      · rw [if_neg h]
        exact dget_dset_ne _ _ _ _ h

theorem unsub_chans_eq (m : Manager) (cl ch : String) :
    (unsubscribe_channel m cl ch).1.channel_subscribers =
      match dlookup m.channel_subscribers ch with
      | none => m.channel_subscribers
      | some cs =>
        if cs.erase cl = ∅ then derase m.channel_subscribers ch
        else dset m.channel_subscribers ch (cs.erase cl) := by
  unfold unsubscribe_channel
  cases hc : dlookup m.channel_subscribers ch with
  | none => rfl
  | some cs =>
    dsimp only
    split <;> rfl

theorem unsub_chans_dget (m : Manager) (cl ch c : String) :
    dget (unsubscribe_channel m cl ch).1.channel_subscribers c =
      if c = ch then (dget m.channel_subscribers c).erase cl
      else dget m.channel_subscribers c := by
  rw [unsub_chans_eq]
  cases hl : dlookup m.channel_subscribers ch with
  | none =>
    by_cases h : c = ch
    · subst h
      rw [if_pos rfl]
      simp [dget, hl]
    · rw [if_neg h]
  | some cs =>
    show dget (if cs.erase cl = ∅ then derase m.channel_subscribers ch
      else dset m.channel_subscribers ch (cs.erase cl)) c = _
    by_cases he : cs.erase cl = ∅
    · rw [if_pos he]
      by_cases h : c = ch
      · subst h
        rw [if_pos rfl, dget_derase, if_pos rfl]
        simp [dget, hl, he]
      · rw [if_neg h, dget_derase, if_neg h]
    · rw [if_neg he]
      by_cases h : c = ch
      · subst h
        rw [if_pos rfl, dget_dset_self]
        simp [dget, hl]
      · rw [if_neg h]
        exact dget_dset_ne _ _ _ _ h

theorem unsub_frames (m : Manager) (cl ch : String) :
    (unsubscribe_channel m cl ch).2 =
      match dlookup m.channel_subscribers ch with
      | none => []
      | some cs =>
        if cs.erase cl = ∅ then
          if ch ≠ TRACK_ADDRESS then [Frame.want []] else []
        else [] := by
  unfold unsubscribe_channel
  cases hc : dlookup m.channel_subscribers ch with
  | none => rfl
  | some cs =>
    dsimp only
    split <;> rfl

/-! ## Invariant preservation -/

theorem inv_init : Inv Manager.init := by
  intro s c
  simp [Manager.init, Inv, dget, dlookup_nil]

theorem subscribe_inv (m : Manager) (cl ch : String) (h : Inv m) :
    Inv (subscribe_channel m cl ch).1 := by
  intro s c
  rw [subscribe_subs_dget, subscribe_chans_dget]
  by_cases hc : c = ch <;> by_cases hs : s = cl
  · subst hc; subst hs
    simp [Finset.mem_insert]
  · subst hc
    rw [if_pos rfl, if_neg hs]
    simp only [Finset.mem_insert]
    constructor
    · rintro (h1 | h2)
      · exact absurd h1 hs
      · exact (h s c).mp h2
    · intro hh
      exact Or.inr ((h s c).mpr hh)
  · subst hs
    rw [if_neg hc, if_pos rfl]
    simp only [Finset.mem_insert]
    constructor
    · intro h1
      exact Or.inr ((h s c).mp h1)
    · rintro (h1 | h2)
      · exact absurd h1 hc
      · exact (h s c).mpr h2
  · rw [if_neg hc, if_neg hs]
    exact h s c

theorem unsub_inv (m : Manager) (cl ch : String) (h : Inv m) :
    Inv (unsubscribe_channel m cl ch).1 := by
  intro s c
  rw [unsub_subs_dget, unsub_chans_dget]
  by_cases hc : c = ch <;> by_cases hs : s = cl
  · subst hc; subst hs
    simp [Finset.mem_erase]
  · subst hc
    rw [if_pos rfl, if_neg hs]
    simp only [Finset.mem_erase]
    constructor
    · rintro ⟨_, h2⟩
      exact (h s c).mp h2
    · intro hh
      exact ⟨hs, (h s c).mpr hh⟩
  · subst hs
    rw [if_neg hc, if_pos rfl]
    simp only [Finset.mem_erase]
    constructor
    · intro h1
      exact ⟨hc, (h s c).mp h1⟩
    · rintro ⟨_, h2⟩
      exact (h s c).mpr h2
  · rw [if_neg hc, if_neg hs]
    exact h s c

theorem track_inv (m : Manager) (cl a : String) (h : Inv m) :
    Inv (track_address m cl a).1 :=
  subscribe_inv m cl (TRACK_ADDRESS_COLON ++ a) h

theorem unsub_client_fold_inv (cl : String) (l : List String)
    (p : Manager × List Frame) (h : Inv p.1) :
    Inv ((l.foldl
      (fun acc channel =>
        let r := unsubscribe_channel acc.1 cl channel
        (r.1, acc.2 ++ r.2)) p).1) := by
  induction l generalizing p with
  | nil => exact h
  | cons ch l ih => exact ih _ (unsub_inv _ _ _ h)

theorem unsub_client_inv (m : Manager) (cl : String) (h : Inv m) :
    Inv (unsubscribe_client m cl).1 := by
  unfold unsubscribe_client
  cases hl : dlookup m.subscriptions cl with
  | none => exact h
  | some s => exact unsub_client_fold_inv cl _ _ h

theorem applyOp_inv (m : Manager) (op : Op) (h : Inv m) : Inv (applyOp m op) := by
  cases op with
  | sub cl ch => exact subscribe_inv m cl ch h
  | unsub cl ch => exact unsub_inv m cl ch h
  | track cl a => exact track_inv m cl a h
  | unsubAll cl => exact unsub_client_inv m cl h

theorem runOps_inv (ops : List Op) : Inv (runOps ops) := by
  have H : ∀ (l : List Op) (m0 : Manager), Inv m0 → Inv (l.foldl applyOp m0) := by
    intro l
    induction l with
    | nil => exact fun m0 h => h
    | cons op l ih => exact fun m0 h => ih _ (applyOp_inv m0 op h)
  exact H ops Manager.init inv_init

/-! ## More dict lemmas -/

theorem dmem_dset_self {β : Type} (d : Dict β) (k : String) (v : β) :
    dmem (dset d k v) k = true :=
  (dmem_iff _ _).mpr (by simp [dlookup_dset_self])

theorem dset_dset {β : Type} (d : Dict β) (k : String) (v v' : β) :
    dset (dset d k v) k v' = dset d k v' := by
  have hm2 : dmem (dset d k v) k = true := dmem_dset_self d k v
  rw [show dset (dset d k v) k v' =
      List.map (fun p => if p.1 == k then (k, v') else p) (dset d k v) from by
    rw [dset, if_pos hm2]]
  by_cases hm : dmem d k
  · rw [dset, if_pos hm, dset, if_pos hm, List.map_map]
    apply List.map_congr_left
    intro p _
    by_cases hpk : p.1 = k <;> simp [hpk]
  · rw [dset, if_neg hm, dset, if_neg hm, List.map_append,
      map_set_of_no_key d k v' (not_dmem_keys hm)]
    simp

theorem dlookup_of_mem {β : Type} {d : Dict β} (hnd : keysNodup d)
    {p : String × β} (hp : p ∈ d) : dlookup d p.1 = some p.2 := by
  induction d with
  | nil => cases hp
  | cons q d ih =>
    obtain ⟨hnotin, hnd'⟩ := keysNodup_cons hnd
    rcases List.mem_cons.mp hp with rfl | hp'
    · rw [dlookup_cons, if_pos rfl]
    · rw [dlookup_cons]
      by_cases hq : q.1 = p.1
      · exact absurd (hq ▸ List.mem_map_of_mem Prod.fst hp') hnotin
      · rw [if_neg hq]
        exact ih hnd' hp'

theorem eq_of_mem_same_key {β : Type} {d : Dict β} (hnd : keysNodup d)
    {p q : String × β} (hp : p ∈ d) (hq : q ∈ d) (hk : p.1 = q.1) : p = q := by
  have h1 := dlookup_of_mem hnd hp
  have h2 := dlookup_of_mem hnd hq
  rw [hk, h2] at h1
  injection h1 with hv
  exact Prod.ext hk hv.symm

/-! ## String lemmas for the track-address channel family -/

theorem strStartsWith_append (a b : String) :
    strStartsWith (a ++ b) a = true := by
  have hd : (a ++ b).toList = a.toList ++ b.toList := String.data_append a b
  rw [strStartsWith, hd]
  exact List.isPrefixOf_iff_prefix.mpr ⟨b.toList, rfl⟩

theorem startsWith_decomp (s : String)
    (h : strStartsWith s TRACK_ADDRESS_COLON = true) :
    ∃ t : List Char, s.toList = TRACK_ADDRESS_COLON.toList ++ t := by
  obtain ⟨t, ht⟩ := List.isPrefixOf_iff_prefix.mp h
  exact ⟨t, ht.symm⟩

theorem dropWhile_track_colon (t : List Char) :
    List.dropWhile (fun c => c != ':') (TRACK_ADDRESS_COLON.toList ++ t) =
      ':' :: t := rfl

theorem afterFirstColon_decomp (s : String) (t : List Char)
    (h : s.toList = TRACK_ADDRESS_COLON.toList ++ t) :
    afterFirstColon s = String.mk t := by
  rw [afterFirstColon, h, dropWhile_track_colon]
  rfl

theorem afterFirstColon_append (a : String) :
    afterFirstColon (TRACK_ADDRESS_COLON ++ a) = a := by
  rw [afterFirstColon_decomp _ a.toList (String.data_append _ _)]
  rfl

theorem track_channel_ne_pseudo (a : String) :
    TRACK_ADDRESS_COLON ++ a ≠ TRACK_ADDRESS := by
  intro h
  have hlen : (TRACK_ADDRESS_COLON ++ a).length = TRACK_ADDRESS.length := by
    rw [h]
  rw [String.length_append] at hlen
  have h14 : TRACK_ADDRESS_COLON.length = 14 := rfl
  have h13 : TRACK_ADDRESS.length = 13 := rfl
  rw [h14, h13] at hlen
  omega

theorem track_channel_inj {c1 c2 : String} {t1 t2 : List Char}
    (h1 : c1.toList = TRACK_ADDRESS_COLON.toList ++ t1)
    (h2 : c2.toList = TRACK_ADDRESS_COLON.toList ++ t2)
    (h : String.mk t1 = String.mk t2) : c1 = c2 := by
  injection h with ht
  exact String.ext (h1.trans (by rw [ht, ← h2]; rfl))

/-! ## Queue lemmas -/

theorem putAll_of_fits {α : Type} :
    ∀ (xs : List α) (q : AQueue α),
      q.items.length + xs.length ≤ q.maxsize →
      AQueue.putAll q xs = some (AQueue.mk q.maxsize (q.items ++ xs))
  | [], q, _ => by simp [AQueue.putAll]
  | x :: xs, q, h => by
    have hnf : q.full = false := by
      rw [AQueue.full]
      simp only [List.length_cons] at h
      have : ¬ q.maxsize ≤ q.items.length := by omega
      simp [this]
    rw [AQueue.putAll, List.foldlM_cons, AQueue.put, hnf]
    show AQueue.putAll (AQueue.mk q.maxsize (q.items ++ [x])) xs = _
    rw [putAll_of_fits xs (AQueue.mk q.maxsize (q.items ++ [x]))
      (by simp only [List.length_append, List.length_cons,
        List.length_nil] at h ⊢; omega)]
    simp

theorem putAll_overflow {α : Type} :
    ∀ (xs : List α) (q : AQueue α), 0 < q.maxsize →
      q.items.length ≤ q.maxsize →
      q.maxsize < q.items.length + xs.length →
      AQueue.putAll q xs = none
  | [], q, _, hle, hlt => by
    simp only [List.length_nil] at hlt
    omega
  | x :: xs, q, hpos, hle, hlt => by
    by_cases hf : q.full = true
    · rw [AQueue.putAll, List.foldlM_cons, AQueue.put, hf]
      rfl
    · have hnf : q.full = false := by
        cases h : q.full
        · rfl
        · exact absurd h hf
      have hroom : q.items.length < q.maxsize := by
        rw [AQueue.full] at hnf
        simp only [Bool.and_eq_false_iff, decide_eq_false_iff_not] at hnf
        rcases hnf with h | h
        · omega
        · omega
      rw [AQueue.putAll, List.foldlM_cons, AQueue.put, hnf]
      show AQueue.putAll (AQueue.mk q.maxsize (q.items ++ [x])) xs = none
      exact putAll_overflow xs (AQueue.mk q.maxsize (q.items ++ [x]))
        hpos (by simp; omega) (by simp only [List.length_append,
          List.length_cons] at hlt ⊢; omega)

/-! ## Claim C4 -/

/-- C4: the bidirectional registry invariant holds in every state
reachable from the fresh manager through `subscribe_channel`,
`unsubscribe_channel`, `track_address` and `unsubscribe_client`: a
subscriber is in `subscribersOf(C)` exactly when the channel is in
`channelsOf(S)`. -/
theorem C4_registry_invariant (m : Manager) (h : Reachable m) : Inv m := by
  obtain ⟨ops, rfl⟩ := h
  exact runOps_inv ops

/-- Witness for C4 at a concrete operation sequence. -/
theorem C4_registry_invariant_witness :
    Inv (runOps [Op.sub "alice" "blocks", Op.track "bob" "addr1",
      Op.unsub "alice" "blocks", Op.unsubAll "bob"]) :=
  C4_registry_invariant _ ⟨_, rfl⟩

/-! ## Claim C7 -/

/-- C7: the reconnection backoff for attempt `n` is `min (2 ^ n) 60`, so
consecutive failing attempts 1..5 sleep exactly 2, 4, 8, 16, 32 time
units; and once the attempt counter has reached the configured maximum
(default 10), `_handle_reconnect` returns without sleeping or calling
`connect()`. -/
theorem C7_backoff_sequence :
    (∀ m : Manager, m.reconnect_attempts = 0 → m.max_reconnect_attempts = 10 →
      sleepsOf (reconnect_events_on_failures m 5) = [2, 4, 8, 16, 32]) ∧
    (∀ m : Manager, m.max_reconnect_attempts ≤ m.reconnect_attempts →
      handle_reconnect_step m = (m, [])) := by
  constructor
  · intro m h0 hmax
    simp [reconnect_events_on_failures, handle_reconnect_step, h0, hmax,
      sleepsOf]
  · intro m h
    rw [handle_reconnect_step, if_pos h]

/-- Witness for C7 at the fresh manager and at an exhausted attempt
counter. -/
theorem C7_backoff_sequence_witness :
    sleepsOf (reconnect_events_on_failures Manager.init 5) =
      [2, 4, 8, 16, 32] ∧
    handle_reconnect_step { Manager.init with reconnect_attempts := 10 } =
      ({ Manager.init with reconnect_attempts := 10 }, []) :=
  ⟨C7_backoff_sequence.1 Manager.init rfl rfl,
   C7_backoff_sequence.2 _ (by decide)⟩

/-! ## Claim C5 -/

/-- C5 counterexample: the history buffer does not drop the oldest entry
when full.  With capacity 2, pushing three messages suspends the
producer on the third `await put` (`none`); in particular no final state
holding the two most recent messages is reached, refuting both the
"oldest discarded" and the "never blocks" parts of the claim. -/
theorem C5_history_counterexample :
    AQueue.putAll (AQueue.mk 2 ([] : List Nat)) [10, 11, 12] = none ∧
    ¬ ∃ q : AQueue Nat,
        AQueue.putAll (AQueue.mk 2 ([] : List Nat)) [10, 11, 12] = some q ∧
        q.items = [11, 12] := by
  refine ⟨by decide, ?_⟩
  rintro ⟨q, hq, _⟩
  rw [show AQueue.putAll (AQueue.mk 2 ([] : List Nat)) [10, 11, 12] = none
    from by decide] at hq
  exact Option.noConfusion hq

/-- C5 amended: the history buffer is a bounded FIFO whose `await put`
suspends the producer when full: filling it with `capacity` messages
keeps exactly those messages in arrival order, and pushing `capacity + 1`
messages suspends instead of completing — the oldest message is kept,
not discarded. -/
theorem C5_history_amended (c : Nat) (msgs : List Nat) (hc : 0 < c)
    (hlen : msgs.length = c + 1) :
    AQueue.putAll (AQueue.mk c []) (msgs.take c) =
      some (AQueue.mk c (msgs.take c)) ∧
    AQueue.putAll (AQueue.mk c []) msgs = none := by
  constructor
  · have := putAll_of_fits (msgs.take c) (AQueue.mk c [])
      (by simp [List.length_take])
    simpa using this
  · exact putAll_overflow msgs (AQueue.mk c []) hc (by simp) (by simp [hlen])

/-- Witness for C5 amended at capacity 2 and three messages. -/
theorem C5_history_amended_witness :
    AQueue.putAll (AQueue.mk 2 []) ([10, 11, 12].take 2) =
      some (AQueue.mk 2 ([10, 11, 12].take 2)) ∧
    AQueue.putAll (AQueue.mk 2 []) [10, 11, 12] = none :=
  C5_history_amended 2 [10, 11, 12] (by decide) (by decide)

/-! ## Claim C6 -/

/-- C6: at the failing input — one listener queue of capacity 1 already
holding an earlier message, and an inbound message classified to its
channel — the distribution step suspends awaiting queue space
(`blocked`) instead of performing a non-blocking push that drops the
message: the source awaits `queue.put`, which never raises
`asyncio.QueueFull`, so its drop branch is unreachable and a slow
consumer blocks the distribution path. -/
theorem C6_distribution_blocks :
    determine_channel ["block"] = Except.ok (some "blocks") ∧
    AQueue.put (AQueue.mk 1 [Message.mk ["old"]]) (Message.mk ["block"]) =
      none ∧
    distribute_message [("blocks", [AQueue.mk 1 [Message.mk ["old"]]])]
      (Message.mk ["block"]) = DistOutcome.blocked ∧
    handle_message (AQueue.mk 1000 [])
      [("blocks", [AQueue.mk 1 [Message.mk ["old"]]])]
      (Message.mk ["block"]) = HandleOutcome.blocked := by decide

/-! ## Claim C1 -/

/-- C1 counterexample: with ordinary channels "blocks" and "stats" both
active, the unsubscribe call that empties "blocks" sends
`want []` — the empty channel list — although the set of ordinary
channels that still have a subscriber is `{"stats"}`; the frame does not
declare the remaining desired set. -/
theorem C1_unwant_counterexample :
    (unsubscribe_channel c1_state "alice" "blocks").2 = [Frame.want []] ∧
    dget (unsubscribe_channel c1_state "alice" "blocks").1.channel_subscribers
      "stats" = {"bob"} ∧
    (unsubscribe_channel c1_state "alice" "blocks").2 ≠
      [Frame.want ["stats"]] := by decide

/-- C1 amended: for an ordinary channel, only the unsubscribe call that
removes the last subscriber sends an upstream frame, and that frame is
`want` with the EMPTY channel list (regardless of which other channels
remain active); any call that leaves the channel with subscribers, or
finds it absent, sends nothing. -/
theorem C1_unwant_amended (m : Manager) (cl ch : String)
    (hch : ch ≠ TRACK_ADDRESS)
    (hne : entriesNonempty m.channel_subscribers) :
    (unsubscribe_channel m cl ch).2 =
      if dlookup m.channel_subscribers ch = some {cl} then [Frame.want []]
      else [] := by
  rw [unsub_frames]
  cases hc : dlookup m.channel_subscribers ch with
  | none => simp
  | some cs =>
    dsimp only
    have hcs : cs ≠ ∅ := hne _ (dlookup_mem hc)
    by_cases he : cs.erase cl = ∅
    · rcases (Finset.erase_eq_empty_iff cs cl).mp he with h | h
      · exact absurd h hcs
      · rw [if_pos he, if_pos hch, if_pos (by rw [h])]
    · rw [if_neg he, if_neg ?hne2]
      case hne2 =>
        intro hsome
        have hcs1 : cs = {cl} := Option.some_inj.mp hsome
        exact he (by rw [hcs1]; exact Finset.erase_singleton cl)

/-- Witness for C1 amended: the last (and only) subscriber leaving sends
`want []`. -/
theorem C1_unwant_amended_witness :
    (unsubscribe_channel c1w "alice" "blocks").2 =
      if dlookup c1w.channel_subscribers "blocks" = some {"alice"} then
        [Frame.want []]
      else [] :=
  C1_unwant_amended c1w "alice" "blocks" (by decide) (by decide)

/-! ## Claim C2 -/

/-- C2 counterexample: `track_address` records the pairing through
`subscribe_channel` under the synthetic channel
`track-address:addr1`, whose name differs from the pseudo-channel
`track-address`, so the zero-to-one transition DOES send a `want` frame
naming the synthetic channel — refuting "no want upstream directive is
ever sent for an address-tracking channel". -/
theorem C2_trackwant_counterexample :
    (track_address Manager.init "carol" "addr1").2 =
      [Frame.trackAddress "addr1",
       Frame.want ["track-address:addr1"]] := by decide

/-- C2 amended: the `want` suppression applies only to the exact
pseudo-channel name `track-address` — subscribing it never emits a
frame; `track_address` sends the track-address control frame first,
immediately and unconditionally, and then the recording step treats the
synthetic channel `track-address:<address>` like an ordinary channel, so
its zero-to-one transition also emits a `want` frame naming it. -/
theorem C2_trackwant_amended (m : Manager) (cl a : String)
    (h0 : dget m.channel_subscribers (TRACK_ADDRESS_COLON ++ a) = ∅) :
    (subscribe_channel m cl TRACK_ADDRESS).2 = [] ∧
    (track_address m cl a).2 =
      [Frame.trackAddress a, Frame.want [TRACK_ADDRESS_COLON ++ a]] := by
  constructor
  · rw [subscribe_frames]
    by_cases hcard :
        (insert cl (dget m.channel_subscribers TRACK_ADDRESS)).card = 1
    · rw [if_pos hcard, if_pos rfl]
    · rw [if_neg hcard]
  · show Frame.trackAddress a ::
      (subscribe_channel m cl (TRACK_ADDRESS_COLON ++ a)).2 = _
    rw [subscribe_frames, h0,
      if_pos (by simp), if_neg (track_channel_ne_pseudo a)]

/-- Witness for C2 amended at the fresh manager. -/
theorem C2_trackwant_amended_witness :
    (subscribe_channel Manager.init "carol" TRACK_ADDRESS).2 = [] ∧
    (track_address Manager.init "carol" "addr1").2 =
      [Frame.trackAddress "addr1",
       Frame.want [TRACK_ADDRESS_COLON ++ "addr1"]] :=
  C2_trackwant_amended Manager.init "carol" "addr1" (by decide)

/-! ## Claim C3 -/

/-- C3 counterexample: subscribing the same subscriber to the same
ordinary channel a second time leaves the registry unchanged, but the
second call sends the `want` directive AGAIN (the trigger is "the
channel has exactly one subscriber after insertion", not "the pairing
was newly added"), refuting "the second call sends no upstream
frame". -/
theorem C3_idempotent_counterexample :
    (subscribe_channel c3_once "dave" "blocks").1 = c3_once ∧
    (subscribe_channel c3_once "dave" "blocks").2 =
      [Frame.want ["blocks"]] := by decide

/-- C3 amended: calling `subscribe_channel` twice in a row with the same
subscriber and channel records the pairing at most once — the second
call leaves the registry state exactly as the first left it — but the
second call repeats exactly the frames of the first call: when the
subscriber is the channel's only subscriber both calls send the `want`
directive, and when other subscribers already existed neither call
sends anything. -/
theorem C3_idempotent_amended (m : Manager) (cl ch : String) :
    (subscribe_channel (subscribe_channel m cl ch).1 cl ch).1 =
      (subscribe_channel m cl ch).1 ∧
    (subscribe_channel (subscribe_channel m cl ch).1 cl ch).2 =
      (subscribe_channel m cl ch).2 := by
  have h1 : dget (subscribe_channel m cl ch).1.subscriptions cl =
      insert ch (dget m.subscriptions cl) := by
    rw [subscribe_subs_dget, if_pos rfl]
  have h2 : dget (subscribe_channel m cl ch).1.channel_subscribers ch =
      insert cl (dget m.channel_subscribers ch) := by
    rw [subscribe_chans_dget, if_pos rfl]
  constructor
  · rw [subscribe_state (subscribe_channel m cl ch).1 cl ch, h1, h2,
      Finset.insert_idem, Finset.insert_idem, subscribe_state m cl ch]
    dsimp only
    rw [dset_dset, dset_dset]
  · rw [subscribe_frames (subscribe_channel m cl ch).1 cl ch,
      subscribe_frames m cl ch, h2, Finset.insert_idem]

/-! ## Claim C10 -/

theorem unsub_state (m : Manager) (cl ch : String) :
    (unsubscribe_channel m cl ch).1 =
      { m with
        subscriptions := (unsubscribe_channel m cl ch).1.subscriptions
        channel_subscribers :=
          (unsubscribe_channel m cl ch).1.channel_subscribers } := by
  unfold unsubscribe_channel
  cases dlookup m.channel_subscribers ch with
  | none => rfl
  | some cs =>
    dsimp only
    split <;> rfl

/-- C10 counterexample: the claim quantifies over every registry state
satisfying the bidirectional invariant; the state with the empty entry
`sue -> {}` satisfies it (both membership sides are empty), the pair
("sue", "blocks") is absent, yet `unsubscribe_channel` deletes the
entry, so the subscriptions map is NOT left unchanged. -/
theorem C10_noop_counterexample :
    Inv c10_dangling ∧
    (unsubscribe_channel c10_dangling "sue" "blocks").1.subscriptions =
      [] ∧
    c10_dangling.subscriptions ≠ [] := by
  refine ⟨?_, by decide, by decide⟩
  intro s c
  constructor
  · intro hmem
    simp [c10_dangling, Manager.init, dget, dlookup_nil] at hmem
  · intro hmem
    have hget : dget c10_dangling.subscriptions s = ∅ := by
      show dget [("sue", ∅)] s = ∅
      rw [dget, dlookup_cons]
      by_cases h : ("sue" : String) = s
      · rw [if_pos h]
        rfl
      · rw [if_neg h]
        rfl
    rw [hget] at hmem
    exact absurd hmem (Finset.not_mem_empty c)

/-- C10 amended: in every registry state satisfying the bidirectional
invariant AND having no empty set entries (which holds in every
reachable state, since the code deletes entries that become empty),
unsubscribing an absent pair is a harmless no-op: the call never fails,
returns the state unchanged, and sends no frame. -/
theorem C10_noop_amended (m : Manager) (cl ch : String)
    (hInv : Inv m) (hWF : RegWF m)
    (habs : cl ∉ dget m.channel_subscribers ch) :
    unsubscribe_channel m cl ch = (m, []) := by
  obtain ⟨hndS, hndC, hneS, hneC⟩ := hWF
  have hnotin : ch ∉ dget m.subscriptions cl :=
    fun hmem => habs ((hInv cl ch).mpr hmem)
  have hsubs : (unsubscribe_channel m cl ch).1.subscriptions =
      m.subscriptions := by
    rw [unsub_subs_eq]
    cases hl : dlookup m.subscriptions cl with
    | none => rfl
    | some s0 =>
      have hs0 : s0 ≠ ∅ := hneS _ (dlookup_mem hl)
      have hget : dget m.subscriptions cl = s0 := by
        rw [dget, hl]
        rfl
      have hras : s0.erase ch = s0 :=
        Finset.erase_eq_of_not_mem (by rwa [hget] at hnotin)
      show (if s0.erase ch = ∅ then derase m.subscriptions cl
        else dset m.subscriptions cl (s0.erase ch)) = _
      rw [hras, if_neg hs0, dset_self_of_lookup _ _ _ hndS hl]
  have hchans : (unsubscribe_channel m cl ch).1.channel_subscribers =
      m.channel_subscribers := by
    rw [unsub_chans_eq]
    cases hc : dlookup m.channel_subscribers ch with
    | none => rfl
    | some cs =>
      have hcs : cs ≠ ∅ := hneC _ (dlookup_mem hc)
      have hget : dget m.channel_subscribers ch = cs := by
        rw [dget, hc]
        rfl
      have hras : cs.erase cl = cs :=
        Finset.erase_eq_of_not_mem (by rwa [hget] at habs)
      show (if cs.erase cl = ∅ then derase m.channel_subscribers ch
        else dset m.channel_subscribers ch (cs.erase cl)) = _
      rw [hras, if_neg hcs, dset_self_of_lookup _ _ _ hndC hc]
  have hfr : (unsubscribe_channel m cl ch).2 = [] := by
    rw [unsub_frames]
    cases hc : dlookup m.channel_subscribers ch with
    | none => rfl
    | some cs =>
      have hcs : cs ≠ ∅ := hneC _ (dlookup_mem hc)
      have hget : dget m.channel_subscribers ch = cs := by
        rw [dget, hc]
        rfl
      have hras : cs.erase cl = cs :=
        Finset.erase_eq_of_not_mem (by rwa [hget] at habs)
      show (if cs.erase cl = ∅ then
        if ch ≠ TRACK_ADDRESS then [Frame.want []] else [] else []) = _
      rw [hras, if_neg hcs]
  have hstate : (unsubscribe_channel m cl ch).1 = m := by
    rw [unsub_state, hsubs, hchans]
  calc unsubscribe_channel m cl ch
      = ((unsubscribe_channel m cl ch).1,
         (unsubscribe_channel m cl ch).2) := rfl
    _ = (m, []) := by rw [hstate, hfr]

/-- Witness for C10 amended: unsubscribing the absent pair
("bob", "stats") is a no-op. -/
theorem C10_noop_amended_witness :
    unsubscribe_channel c10w "bob" "stats" = (c10w, []) :=
  C10_noop_amended c10w "bob" "stats"
    (subscribe_inv Manager.init "alice" "blocks" inv_init)
    (by decide) (by decide)

/-! ## Claim C8 -/

/-- C8: after the reconnect succeeds, `_restore_subscriptions` issues
one upstream directive per channel that has at least one subscriber at
replay time — a `want` frame naming each ordinary channel and a
track-address frame for each distinct tracked address — with no
duplicates, no omissions and nothing else; and the successful
`connect()` resets the attempt counter to zero.  (Hypotheses: unique
dict keys and nonempty entries, true of every Python dict state the code
builds; nobody is subscribed to the bare `track-address` pseudo-channel,
which `track_address` never creates; and the manager is disconnected
when `connect()` runs.) -/
theorem C8_replay_covers (m : Manager)
    (hnd : keysNodup m.channel_subscribers)
    (hne : entriesNonempty m.channel_subscribers)
    (hta : dlookup m.channel_subscribers TRACK_ADDRESS = none)
    (hconn : m.is_connected = false) :
    ((restore_subscriptions m).length = m.channel_subscribers.length) ∧
    (∀ c, dget m.channel_subscribers c ≠ ∅ →
      strStartsWith c TRACK_ADDRESS_COLON = false →
        Frame.want [c] ∈ restore_subscriptions m) ∧
    (∀ a, dget m.channel_subscribers (TRACK_ADDRESS_COLON ++ a) ≠ ∅ →
        Frame.trackAddress a ∈ restore_subscriptions m) ∧
    (∀ f ∈ restore_subscriptions m,
      (∃ c, dget m.channel_subscribers c ≠ ∅ ∧ c ≠ TRACK_ADDRESS ∧
        strStartsWith c TRACK_ADDRESS_COLON = false ∧ f = Frame.want [c]) ∨
      (∃ a, dget m.channel_subscribers (TRACK_ADDRESS_COLON ++ a) ≠ ∅ ∧
        f = Frame.trackAddress a)) ∧
    (restore_subscriptions m).Nodup ∧
    ((connect_success m).reconnect_attempts = 0 ∧
      (connect_success m).is_connected = true) := by
  have hlnd : m.channel_subscribers.Nodup := List.Nodup.of_map _ hnd
  refine ⟨List.length_map _ _, ?_, ?_, ?_, ?_, ?_⟩
  · intro c hc hpre
    cases hl : dlookup m.channel_subscribers c with
    | none => exact absurd (by rw [dget, hl]; rfl) hc
    | some v =>
      have hmem := dlookup_mem hl
      have := List.mem_map_of_mem
        (fun p => if strStartsWith p.1 TRACK_ADDRESS_COLON then
          Frame.trackAddress (afterFirstColon p.1)
        else Frame.want [p.1]) hmem
      dsimp only at this
      rw [if_neg (by simp [hpre])] at this
      rw [restore_subscriptions]
      exact this
  · intro a ha
    cases hl : dlookup m.channel_subscribers (TRACK_ADDRESS_COLON ++ a) with
    | none => exact absurd (by rw [dget, hl]; rfl) ha
    | some v =>
      have hmem := dlookup_mem hl
      have := List.mem_map_of_mem
        (fun p => if strStartsWith p.1 TRACK_ADDRESS_COLON then
          Frame.trackAddress (afterFirstColon p.1)
        else Frame.want [p.1]) hmem
      dsimp only at this
      rw [if_pos (strStartsWith_append TRACK_ADDRESS_COLON a),
        afterFirstColon_append] at this
      rw [restore_subscriptions]
      exact this
  · intro f hf
    obtain ⟨p, hp, hfp⟩ := List.mem_map.mp hf
    have hlk : dlookup m.channel_subscribers p.1 = some p.2 :=
      dlookup_of_mem hnd hp
    have hgetp : dget m.channel_subscribers p.1 = p.2 := by
      rw [dget, hlk]
      rfl
    have hnep : dget m.channel_subscribers p.1 ≠ ∅ := by
      rw [hgetp]
      exact hne p hp
    by_cases hpre : strStartsWith p.1 TRACK_ADDRESS_COLON = true
    · right
      obtain ⟨t, ht⟩ := startsWith_decomp p.1 hpre
      have heq : TRACK_ADDRESS_COLON ++ String.mk t = p.1 :=
        String.ext ((String.data_append _ _).trans ht.symm)
      refine ⟨String.mk t, ?_, ?_⟩
      · rw [heq]
        exact hnep
      · rw [← hfp, if_pos hpre, afterFirstColon_decomp p.1 t ht]
    · left
      have hordinary : p.1 ≠ TRACK_ADDRESS := by
        intro hpt
        rw [hpt] at hlk
        rw [hlk] at hta
        exact Option.noConfusion hta
      refine ⟨p.1, hnep, hordinary, by simpa using hpre, ?_⟩
      rw [← hfp, if_neg hpre]
  · apply List.Nodup.map_on ?_ hlnd
    intro p hp q hq hgpq
    by_cases hp1 : strStartsWith p.1 TRACK_ADDRESS_COLON = true <;>
      by_cases hq1 : strStartsWith q.1 TRACK_ADDRESS_COLON = true
    · rw [if_pos hp1, if_pos hq1] at hgpq
      injection hgpq with ha
      obtain ⟨t1, ht1⟩ := startsWith_decomp p.1 hp1
      obtain ⟨t2, ht2⟩ := startsWith_decomp q.1 hq1
      rw [afterFirstColon_decomp p.1 t1 ht1,
        afterFirstColon_decomp q.1 t2 ht2] at ha
      exact eq_of_mem_same_key hnd hp hq (track_channel_inj ht1 ht2 ha)
    · rw [if_pos hp1, if_neg hq1] at hgpq
      exact Frame.noConfusion hgpq
    · rw [if_neg hp1, if_pos hq1] at hgpq
      exact Frame.noConfusion hgpq
    · rw [if_neg hp1, if_neg hq1] at hgpq
      injection hgpq with hd
      injection hd with hc
      exact eq_of_mem_same_key hnd hp hq hc
  · rw [connect_success, if_neg (by simp [hconn])]
    exact ⟨rfl, rfl⟩

/-- Witness for C8 at a concrete three-channel state. -/
theorem C8_replay_covers_witness :
    (restore_subscriptions c8m).length = c8m.channel_subscribers.length ∧
    (restore_subscriptions c8m).Nodup ∧
    (connect_success c8m).reconnect_attempts = 0 := by
  have h := C8_replay_covers c8m (by decide) (by decide) (by decide)
    (by decide)
  exact ⟨h.1, h.2.2.2.2.1, h.2.2.2.2.2.1⟩

/-! ## Claim C9 -/

/-- C9 counterexample: in the state where automatic recovery has given
up (attempt counter at the maximum, so `_handle_reconnect` does
nothing), the status dict reports `connected: false` but contains NO
"abandoned" key — there is no sticky abandoned indicator, only the
`reconnect_attempts` count. -/
theorem C9_status_counterexample :
    c9_abandoned.max_reconnect_attempts ≤ c9_abandoned.reconnect_attempts ∧
    handle_reconnect_step c9_abandoned = (c9_abandoned, []) ∧
    dlookup (get_connection_status c9_abandoned) "connected" =
      some (StatusValue.bool false) ∧
    "abandoned" ∉ (get_connection_status c9_abandoned).map Prod.fst := by
  decide

/-- C9 amended: the status query is total — it is a mere projection of
the manager state and never fails — and returns exactly the five fields
`connected`, `last_ping`, `reconnect_attempts`, `active_subscriptions`
and `total_clients`; under the no-empty-entries representation invariant
the two counts equal the number of channels with at least one subscriber
and the number of subscribers with at least one channel.  There is no
dedicated abandoned indicator: when recovery has given up the caller
sees `connected: false` and the attempt counter stuck at the maximum,
nothing more. -/
theorem C9_status_amended (m : Manager)
    (hneS : entriesNonempty m.subscriptions)
    (hneC : entriesNonempty m.channel_subscribers) :
    (get_connection_status m).map Prod.fst =
      ["connected", "last_ping", "reconnect_attempts",
        "active_subscriptions", "total_clients"] ∧
    dlookup (get_connection_status m) "connected" =
      some (StatusValue.bool m.is_connected) ∧
    dlookup (get_connection_status m) "last_ping" =
      some (StatusValue.nat m.last_ping) ∧
    dlookup (get_connection_status m) "reconnect_attempts" =
      some (StatusValue.nat m.reconnect_attempts) ∧
    dlookup (get_connection_status m) "active_subscriptions" =
      some (StatusValue.nat (channelsWithSubscribers m)) ∧
    dlookup (get_connection_status m) "total_clients" =
      some (StatusValue.nat (clientsWithChannels m)) ∧
    "abandoned" ∉ (get_connection_status m).map Prod.fst := by
  have hC : channelsWithSubscribers m = m.channel_subscribers.length := by
    rw [channelsWithSubscribers,
      List.filter_eq_self.mpr (fun p hp => by simpa using hneC p hp)]
  have hS : clientsWithChannels m = m.subscriptions.length := by
    rw [clientsWithChannels,
      List.filter_eq_self.mpr (fun p hp => by simpa using hneS p hp)]
  refine ⟨by simp [get_connection_status], ?_, ?_, ?_, ?_, ?_, ?_⟩ <;>
    simp [get_connection_status, dlookup_cons, dlookup_nil, hC, hS]

/-- Witness for C9 amended at a concrete one-subscriber state. -/
theorem C9_status_amended_witness :
    dlookup (get_connection_status c9w) "active_subscriptions" =
      some (StatusValue.nat (channelsWithSubscribers c9w)) ∧
    "abandoned" ∉ (get_connection_status c9w).map Prod.fst := by
  have h := C9_status_amended c9w (by decide) (by decide)
  exact ⟨h.2.2.2.2.1, h.2.2.2.2.2.2⟩

end MempoolWS
